import Mathlib

/-!
Verification of the AQ-NHE configuration loader (`config/settings.py`) and the
Firebase client wrapper (`core/firebase_client.py`).

The configuration loader reads a snapshot of the process environment; we model
that snapshot as a function from variable names to optional values, following
the design note in the specification that the loader is a pure function of an
environment snapshot.  Python falsiness of a string (absent variable, or a
variable set to the empty string) is modelled explicitly.  Floating-point
configuration constants are decimal literals that are only stored, never
computed with, so they are embedded as rationals.

The Firebase client wrapper is a class-level singleton; its class state
(`_instance`, `_initialized`) is modelled as an explicit state record, with a
counter allocating fresh object identities so that "identical object" is
expressible.  Whether the underlying SDK initialization raises is outside the
program; it enters the model as an oracle parameter (`none` = success,
`some e` = the initializer raises exception `e`).
-/

/-- An environment snapshot: `none` means the variable is unset. -/
abbrev Env := String → Option String

/-- Model of Python `os.getenv(k, "")`: the value, or `""` when unset. -/
def getenvD (env : Env) (k : String) : String := (env k).getD ""

/-- Model of Python `not os.getenv(var)`: true when the variable is unset or
set to the empty string. -/
def envMissing (env : Env) (k : String) : Bool :=
  match env k with
  | none => true
  | some v => v == ""

/-- The mandatory environment variables, from
`AQNHEConfig._validate_environment`. -/
def required_vars : List String :=
  ["FIREBASE_PROJECT_ID", "FIREBASE_PRIVATE_KEY", "FIREBASE_CLIENT_EMAIL"]

/-- Model of `s.replace('\\n', '\n')` from `FirebaseConfig.__post_init__`,
specialised to its fixed two-character pattern: a left-to-right scan replacing
each non-overlapping occurrence of backslash-n by a newline character. -/
def replaceEsc : List Char → List Char
  | [] => []
  | [c] => [c]
  | a :: b :: rest =>
    if a = '\\' ∧ b = 'n' then '\n' :: replaceEsc rest
    else a :: replaceEsc (b :: rest)

/-- The escaping direction described by the specification's round-trip
property: each newline character becomes the two-character sequence
backslash-n.  (Not present in the source; it is the inverse transformation
the spec's round-trip property quantifies over.) -/
def escapeKey : List Char → List Char
  | [] => []
  | c :: rest => if c = '\n' then '\\' :: 'n' :: escapeKey rest else c :: escapeKey rest

/-- No occurrence of backslash immediately followed by the letter n. -/
def noSeq : List Char → Prop
  | [] => True
  | [_] => True
  | a :: b :: rest => ¬(a = '\\' ∧ b = 'n') ∧ noSeq (b :: rest)

/-- Private-key normalization, as performed by `FirebaseConfig.__post_init__`. -/
def normalizeKey (s : String) : String := String.mk (replaceEsc s.data)

/-- String-level escaping direction (see `escapeKey`). -/
def escapeKeyStr (s : String) : String := String.mk (escapeKey s.data)

/-- Specification-side relation for private-key normalization, following the
spec's words: every literal two-character backslash-n escape sequence is
replaced by an actual newline character, and positions without that escape
sequence are unchanged. -/
inductive EscRel : List Char → List Char → Prop where
  | nil : EscRel [] []
  | esc {xs ys : List Char} : EscRel xs ys → EscRel ('\\' :: 'n' :: xs) ('\n' :: ys)
  | keep {c : Char} {xs ys : List Char} :
      (c = '\\' → xs.head? ≠ some 'n') → EscRel xs ys → EscRel (c :: xs) (c :: ys)

/-- Whether `needle` occurs at the head of `hay`. -/
def charsLead : List Char → List Char → Bool
  | [], _ => true
  | _ :: _, [] => false
  | a :: t, b :: u => a == b && charsLead t u

/-- Whether `needle` occurs as a contiguous substring of the second list. -/
def hasSub (needle : List Char) : List Char → Bool
  | [] => needle.isEmpty
  | a :: t => charsLead needle (a :: t) || hasSub needle t

/-- Model of the `FirebaseConfig` dataclass (`config/settings.py`). -/
structure FirebaseConfig where
  project_id : String
  private_key_id : String
  private_key : String
  client_email : String
  client_id : String
  database_url : String
deriving DecidableEq

/-- Model of constructing `FirebaseConfig`, including `__post_init__`: if any
of project id, private key, client email is empty (Python falsy), raise
`ValueError("Missing required Firebase credentials")`; otherwise store the
fields with the private key normalized. -/
def FirebaseConfig.make (project_id private_key_id private_key client_email
    client_id database_url : String) : Except String FirebaseConfig :=
  if project_id = "" ∨ private_key = "" ∨ client_email = "" then
    .error "Missing required Firebase credentials"
  else
    .ok { project_id := project_id, private_key_id := private_key_id,
          private_key := normalizeKey private_key, client_email := client_email,
          client_id := client_id, database_url := database_url }

/-- Model of the `TradingConfig` dataclass. -/
structure TradingConfig where
  exchange : String
  timeframe : String
  max_position_size : Rat
  max_strategies : Nat
  backtest_days : Nat
deriving DecidableEq

/-- The dataclass defaults for `TradingConfig`. -/
def TradingConfig.default : TradingConfig :=
  { exchange := "binance", timeframe := "1h", max_position_size := 1/10,
    max_strategies := 100, backtest_days := 365 }

/-- Model of the `QuantumNeuroConfig` dataclass. -/
structure QuantumNeuroConfig where
  population_size : Nat
  generations : Nat
  mutation_rate : Rat
  crossover_rate : Rat
  quantum_bits : Nat
  neuro_layers : List Nat
deriving DecidableEq

/-- Model of constructing `QuantumNeuroConfig`, including `__post_init__`:
a `None` layer list (modelled as `Option.none`) is replaced by the default
sequence `[64, 32, 16, 8]`; a supplied list is kept as given. -/
def QuantumNeuroConfig.make (population_size generations : Nat)
    (mutation_rate crossover_rate : Rat) (quantum_bits : Nat)
    (neuro_layers : Option (List Nat)) : QuantumNeuroConfig :=
  { population_size := population_size, generations := generations,
    mutation_rate := mutation_rate, crossover_rate := crossover_rate,
    quantum_bits := quantum_bits, neuro_layers := neuro_layers.getD [64, 32, 16, 8] }

/-- The dataclass defaults for `QuantumNeuroConfig` (layer list left `None`). -/
def QuantumNeuroConfig.default : QuantumNeuroConfig :=
  QuantumNeuroConfig.make 50 100 (1/10) (4/5) 10 none

/-- Model of the `LoggingConfig` dataclass. -/
structure LoggingConfig where
  level : String
  format : String
  file_path : String
deriving DecidableEq

/-- The dataclass defaults for `LoggingConfig`. -/
def LoggingConfig.default : LoggingConfig :=
  { level := "INFO", format := "%(asctime)s - %(name)s - %(levelname)s - %(message)s",
    file_path := "logs/aq_nhe.log" }

/-- Model of the `AQNHEConfig` aggregate. -/
structure AQNHEConfig where
  firebase : FirebaseConfig
  trading : TradingConfig
  quantum_neuro : QuantumNeuroConfig
  logging : LoggingConfig
  min_sharpe_ratio : Rat
  max_drawdown : Rat
  min_win_rate : Rat
deriving DecidableEq

/-- The error message raised by `AQNHEConfig._validate_environment`,
enumerating the missing variable names with a comma separator. -/
def missingMsg (missing : List String) : String :=
  "Missing required environment variables: " ++
    String.intercalate ", " missing ++
    ". Please set these in your .env file or environment."

/-- Model of `AQNHEConfig._validate_environment`: collect every mandatory
variable that is unset or empty; if any, raise an `EnvironmentError` whose
message enumerates all of them. -/
def AQNHEConfig.validate_environment (env : Env) : Except String Unit :=
  let missing := required_vars.filter (fun v => envMissing env v)
  if missing.isEmpty then .ok ()
  else .error (missingMsg missing)

/-- Model of `AQNHEConfig.__init__`: validate the environment, build the
Firebase section from the environment (empty-string defaults for absent
variables), and fill the remaining sections and thresholds with their
hard-coded values. -/
def AQNHEConfig.init (env : Env) : Except String AQNHEConfig :=
  match AQNHEConfig.validate_environment env with
  | .error e => .error e
  | .ok _ =>
    match FirebaseConfig.make (getenvD env "FIREBASE_PROJECT_ID")
        (getenvD env "FIREBASE_PRIVATE_KEY_ID")
        (getenvD env "FIREBASE_PRIVATE_KEY")
        (getenvD env "FIREBASE_CLIENT_EMAIL")
        (getenvD env "FIREBASE_CLIENT_ID")
        (getenvD env "FIREBASE_DATABASE_URL") with
    | .error e => .error e
    | .ok fb =>
      .ok { firebase := fb, trading := TradingConfig.default,
            quantum_neuro := QuantumNeuroConfig.default,
            logging := LoggingConfig.default,
            min_sharpe_ratio := 1, max_drawdown := -(1/5), min_win_rate := 11/20 }

/-- The concrete environment of the spec's success scenario. -/
def env5 : Env := fun k =>
  if k = "FIREBASE_PROJECT_ID" then some "demo"
  else if k = "FIREBASE_PRIVATE_KEY" then some "line1\\nline2"
  else if k = "FIREBASE_CLIENT_EMAIL" then some "a@b.com"
  else none

/-- The configuration value the success scenario is expected to produce. -/
def cfg5 : AQNHEConfig :=
  { firebase := { project_id := "demo", private_key_id := "",
                  private_key := "line1\nline2", client_email := "a@b.com",
                  client_id := "", database_url := "" },
    trading := TradingConfig.default, quantum_neuro := QuantumNeuroConfig.default,
    logging := LoggingConfig.default,
    min_sharpe_ratio := 1, max_drawdown := -(1/5), min_win_rate := 11/20 }

/-- The class-level state of `FirebaseClient`: the cached `_instance` (an
object identity, or `none`), the `_initialized` flag (named `initDone` here),
and an allocator counter for fresh object identities. -/
structure FBWorld where
  counter : Nat
  inst : Option Nat
  initDone : Bool
deriving DecidableEq

/-- Model of `FirebaseClient.__new__`: create and cache a fresh instance if
`_instance` is `None`, otherwise return the cached one. -/
def FirebaseClient.new (w : FBWorld) : Nat × FBWorld :=
  match w.inst with
  | some i => (i, w)
  | none => (w.counter,
      { counter := w.counter + 1, inst := some w.counter, initDone := w.initDone })

/-- Model of constructing `FirebaseClient()` (`__new__` then `__init__`):
if `_initialized` is false, run the SDK initializer — on success set
`_initialized = True` and return the instance, on failure log and re-raise the
same exception (state keeps the cached instance, flag stays false); if already
initialized, return the cached instance untouched.  `oracle` says whether the
SDK initializer raises this time (`some e` = raises exception `e`). -/
def FirebaseClient.construct (w : FBWorld) (oracle : Option String) :
    Except String Nat × FBWorld :=
  if ((FirebaseClient.new w).2).initDone then
    (.ok (FirebaseClient.new w).1, (FirebaseClient.new w).2)
  else
    match oracle with
    | none => (.ok (FirebaseClient.new w).1,
        { counter := ((FirebaseClient.new w).2).counter,
          inst := ((FirebaseClient.new w).2).inst, initDone := true })
    | some e => (.error e, (FirebaseClient.new w).2)

/-- The class state at process start: no instance, not initialized. -/
def FirebaseClient.startWorld : FBWorld :=
  { counter := 0, inst := none, initDone := false }

/-- A tail of a list with no backslash-n pair also has none. -/
theorem noSeq_tail {a : Char} {xs : List Char} (h : noSeq (a :: xs)) : noSeq xs := by
  cases xs with
  | nil => trivial
  | cons y t => exact h.2

/-- Prepending a character that does not create a backslash-n pair preserves
`noSeq`. -/
theorem noSeq_cons {a : Char} {xs : List Char}
    (h1 : a = '\\' → xs.head? ≠ some 'n') (h2 : noSeq xs) : noSeq (a :: xs) := by
  cases xs with
  | nil => trivial
  | cons y t =>
      refine ⟨fun hp => ?_, h2⟩
      exact h1 hp.1 (by simp [hp.2])

/-- The first output character of `replaceEsc` on a non-empty list is either
the first input character or a newline. -/
theorem replaceEsc_head (b : Char) (r : List Char) :
    (replaceEsc (b :: r)).head? = some b ∨ (replaceEsc (b :: r)).head? = some '\n' := by
  cases r with
  | nil => left; rfl
  | cons c t =>
      by_cases h : b = '\\' ∧ c = 'n'
      · right; simp [replaceEsc, h]
      · left; simp [replaceEsc, h]

/-- The output of `replaceEsc` contains no backslash-n pair. -/
theorem replaceEsc_noSeq (u : List Char) : noSeq (replaceEsc u) := by
  induction u using replaceEsc.induct with
  | case1 => trivial
  | case2 c => trivial
  | case3 a b rest h ih =>
      obtain ⟨ha, hb⟩ := h
      subst ha; subst hb
      simp only [replaceEsc, if_pos (And.intro rfl rfl)]
      exact noSeq_cons (fun hc => absurd hc (by decide)) ih
  | case4 a b rest h ih =>
      simp only [replaceEsc, if_neg h]
      refine noSeq_cons (fun ha hh => ?_) ih
      rcases replaceEsc_head b rest with hd | hd
      · rw [hd] at hh
        exact h ⟨ha, by injection hh⟩
      · rw [hd] at hh
        have : '\n' = 'n' := by injection hh
        exact absurd this (by decide)

/-- Normalization leaves a list without backslash-n pairs unchanged. -/
theorem replaceEsc_fix {v : List Char} (h : noSeq v) : replaceEsc v = v := by
  induction v using replaceEsc.induct with
  | case1 => rfl
  | case2 c => rfl
  | case3 a b rest hc ih => exact absurd hc h.1
  | case4 a b rest hc ih =>
      simp only [replaceEsc, if_neg hc]
      rw [ih h.2]

/-- The first output character of `escapeKey` on a non-empty list. -/
theorem escapeKey_cons (d : Char) (t : List Char) :
    ∃ ys, escapeKey (d :: t) = (if d = '\n' then '\\' else d) :: ys := by
  by_cases hd : d = '\n'
  · exact ⟨'n' :: escapeKey t, by simp [escapeKey, hd]⟩
  · exact ⟨escapeKey t, by simp [escapeKey, hd]⟩

/-- Escaping a list with no backslash-n pair and then normalizing recovers it. -/
theorem replaceEsc_escapeKey {v : List Char} (h : noSeq v) :
    replaceEsc (escapeKey v) = v := by
  induction v with
  | nil => rfl
  | cons c rest ih =>
      by_cases hc : c = '\n'
      · subst hc
        have he : escapeKey ('\n' :: rest) = '\\' :: 'n' :: escapeKey rest := by
          simp [escapeKey]
        have hr : replaceEsc ('\\' :: 'n' :: escapeKey rest) =
            '\n' :: replaceEsc (escapeKey rest) := by
          cases hE : escapeKey rest with
          | nil => simp [replaceEsc]
          | cons y ys => simp [replaceEsc]
        rw [he, hr, ih (noSeq_tail h)]
      · simp only [escapeKey, if_neg hc]
        cases rest with
        | nil => rfl
        | cons d t =>
            obtain ⟨ys, hE⟩ := escapeKey_cons d t
            rw [hE]
            have hcond : ¬(c = '\\' ∧ (if d = '\n' then '\\' else d) = 'n') := by
              rintro ⟨h1, h2⟩
              by_cases hd : d = '\n'
              · rw [if_pos hd] at h2; exact absurd h2 (by decide)
              · rw [if_neg hd] at h2
                exact h.1 ⟨h1, h2⟩
            simp only [replaceEsc, if_neg hcond]
            rw [← hE, ih (noSeq_tail h)]

/-- Normalization realises the specification-side replacement relation. -/
theorem escRel_replaceEsc (u : List Char) : EscRel u (replaceEsc u) := by
  induction u using replaceEsc.induct with
  | case1 => exact .nil
  | case2 c =>
      exact .keep (fun _ => by simp) .nil
  | case3 a b rest h ih =>
      obtain ⟨ha, hb⟩ := h
      subst ha; subst hb
      simp only [replaceEsc, if_pos (And.intro rfl rfl)]
      exact .esc ih
  | case4 a b rest h ih =>
      simp only [replaceEsc, if_neg h]
      refine .keep (fun ha hh => ?_) ih
      exact h ⟨ha, by injection hh⟩

/-- After `__new__`, the cached instance is exactly the returned one, and the
initialization flag is untouched. -/
theorem new_spec (w : FBWorld) :
    ((FirebaseClient.new w).2).inst = some (FirebaseClient.new w).1 ∧
    ((FirebaseClient.new w).2).initDone = w.initDone := by
  unfold FirebaseClient.new
  cases hw : w.inst <;> simp [hw]

/-- Constructing against a cached, initialized state returns the cached
instance and changes nothing, whatever the SDK would have done. -/
theorem construct_cached (w : FBWorld) (i : Nat) (h1 : w.inst = some i)
    (h2 : w.initDone = true) (oracle : Option String) :
    FirebaseClient.construct w oracle = (.ok i, w) := by
  simp [FirebaseClient.construct, FirebaseClient.new, h1, h2]

/-- C2: after any successful construction of the service client, the handle is
cached and the flag set, and every subsequent construction — under any oracle,
i.e. without re-running the initializer — returns the identical instance with
the class state unchanged. -/
theorem c2_singleton_returns_identical_instance (w : FBWorld) (oracle : Option String) (i : Nat) (w₁ : FBWorld)
    (h : FirebaseClient.construct w oracle = (.ok i, w₁)) :
    w₁.inst = some i ∧ w₁.initDone = true ∧
    ∀ oracle₂, FirebaseClient.construct w₁ oracle₂ = (.ok i, w₁) := by
  obtain ⟨hni, hnd⟩ := new_spec w
  unfold FirebaseClient.construct at h
  have key : w₁.inst = some i ∧ w₁.initDone = true := by
    by_cases hI : ((FirebaseClient.new w).2).initDone = true
    · rw [if_pos hI] at h
      simp only [Prod.mk.injEq, Except.ok.injEq] at h
      obtain ⟨ha, hb⟩ := h
      subst hb
      rw [← ha]
      exact ⟨hni, hI⟩
    · rw [if_neg hI] at h
      cases oracle with
      | some e => simp at h
      | none =>
          simp only [Prod.mk.injEq, Except.ok.injEq] at h
          obtain ⟨ha, hb⟩ := h
          subst hb
          refine ⟨?_, rfl⟩
          simp only [← ha]
          exact hni
  exact ⟨key.1, key.2, fun o₂ => construct_cached w₁ i key.1 key.2 o₂⟩

/-- C6: if the client is not yet initialized and the SDK initializer raises
`e`, construction propagates exactly that exception (no swallowing, no retry,
no degraded handle is returned) and the initialization flag stays false. -/
theorem c6_init_failure_logged_and_reraised (w : FBWorld) (e : String) (h : w.initDone = false) :
    FirebaseClient.construct w (some e) = (.error e, (FirebaseClient.new w).2) ∧
    ((FirebaseClient.new w).2).initDone = false := by
  have hnd : ((FirebaseClient.new w).2).initDone = false := by
    rw [(new_spec w).2, h]
  constructor
  · unfold FirebaseClient.construct
    simp [hnd]
  · exact hnd

/-- C10 (implicit): when the first construction fails, the singleton instance
is nonetheless cached while the initialized flag remains false, so a later
construction re-runs the full initialization: it fails again under a failing
oracle and succeeds (returning the same cached instance and setting the flag)
under a succeeding one. -/
theorem c10_failed_init_caches_instance_only (w : FBWorld) (e : String) (h1 : w.inst = none) (h2 : w.initDone = false) :
    ∃ w₁, FirebaseClient.construct w (some e) = (.error e, w₁) ∧
      w₁.inst = some w.counter ∧ w₁.initDone = false ∧
      (∀ e₂, FirebaseClient.construct w₁ (some e₂) = (.error e₂, w₁)) ∧
      (FirebaseClient.construct w₁ none).1 = .ok w.counter ∧
      ((FirebaseClient.construct w₁ none).2).initDone = true := by
  refine ⟨{ counter := w.counter + 1, inst := some w.counter, initDone := false },
    ?_, rfl, rfl, ?_, ?_, ?_⟩
  · simp [FirebaseClient.construct, FirebaseClient.new, h1, h2]
  · intro e₂
    simp [FirebaseClient.construct, FirebaseClient.new]
  · simp [FirebaseClient.construct, FirebaseClient.new]
  · simp [FirebaseClient.construct, FirebaseClient.new]

/-- C7: escaping a normalized private key and re-normalizing yields the same
normalized value, and normalization is idempotent on its own output. -/
theorem c7_normalization_roundtrip_idempotent (s : String) :
    normalizeKey (escapeKeyStr (normalizeKey s)) = normalizeKey s ∧
    normalizeKey (normalizeKey s) = normalizeKey s := by
  constructor
  · show String.mk (replaceEsc (escapeKey (replaceEsc s.data))) = String.mk (replaceEsc s.data)
    exact congrArg String.mk (replaceEsc_escapeKey (replaceEsc_noSeq s.data))
  · show String.mk (replaceEsc (replaceEsc s.data)) = String.mk (replaceEsc s.data)
    exact congrArg String.mk (replaceEsc_fix (replaceEsc_noSeq s.data))

/-- C3: whenever configuration construction succeeds, the stored private-key
field is the environment's raw private key with every literal backslash-n
escape replaced by a newline and all other positions unchanged (the relation
`EscRel`). -/
theorem c3_private_key_escapes_normalized (env : Env) (cfg : AQNHEConfig)
    (h : AQNHEConfig.init env = Except.ok cfg) :
    EscRel (getenvD env "FIREBASE_PRIVATE_KEY").data cfg.firebase.private_key.data := by
  unfold AQNHEConfig.init at h
  cases hv : AQNHEConfig.validate_environment env with
  | error e => rw [hv] at h; exact Except.noConfusion h
  | ok u =>
      rw [hv] at h
      cases hm : FirebaseConfig.make (getenvD env "FIREBASE_PROJECT_ID")
          (getenvD env "FIREBASE_PRIVATE_KEY_ID") (getenvD env "FIREBASE_PRIVATE_KEY")
          (getenvD env "FIREBASE_CLIENT_EMAIL") (getenvD env "FIREBASE_CLIENT_ID")
          (getenvD env "FIREBASE_DATABASE_URL") with
      | error e => rw [hm] at h; exact Except.noConfusion h
      | ok fb =>
          rw [hm] at h
          have hcfg := Except.ok.inj h
          subst hcfg
          unfold FirebaseConfig.make at hm
          by_cases hc : getenvD env "FIREBASE_PROJECT_ID" = "" ∨
              getenvD env "FIREBASE_PRIVATE_KEY" = "" ∨
              getenvD env "FIREBASE_CLIENT_EMAIL" = ""
          · rw [if_pos hc] at hm; exact Except.noConfusion hm
          · rw [if_neg hc] at hm
            have hfb2 := Except.ok.inj hm
            subst hfb2
            exact escRel_replaceEsc _

/-- C9: constructing the algorithm parameters without a layer list populates
the fixed default `[64, 32, 16, 8]`; an explicitly supplied non-empty list is
preserved unchanged. -/
theorem c9_neuro_layers_default :
    (∀ ps g mr cr qb,
      (QuantumNeuroConfig.make ps g mr cr qb none).neuro_layers = [64, 32, 16, 8]) ∧
    (∀ ps g mr cr qb l, l ≠ [] →
      (QuantumNeuroConfig.make ps g mr cr qb (some l)).neuro_layers = l) :=
  ⟨fun _ _ _ _ _ => rfl, fun _ _ _ _ _ _ _ => rfl⟩

/-- C4 counterexample: constructing the credentials record with an empty
project identifier fails, but with the fixed message
"Missing required Firebase credentials", which does not contain "project" and
hence does not name the missing field (both the dataclass field name
`project_id` and the spec's "project identifier" contain "project"). -/
theorem c4_error_does_not_name_fields :
    FirebaseConfig.make "" "kid" "KEY" "ops@example.com" "cid" "url" =
      Except.error "Missing required Firebase credentials" ∧
    hasSub "project".data "Missing required Firebase credentials".data = false := by
  constructor
  · rfl
  · decide

/-- C4 (amended): constructing the credentials record with any empty mandatory
field (project identifier, private key, or client email) fails with the single
fixed validation message "Missing required Firebase credentials", which does
not identify which fields are missing. -/
theorem c4_fixed_error_on_empty_mandatory_field (project_id private_key_id private_key client_email
    client_id database_url : String)
    (h : project_id = "" ∨ private_key = "" ∨ client_email = "") :
    FirebaseConfig.make project_id private_key_id private_key client_email
      client_id database_url =
      Except.error "Missing required Firebase credentials" := by
  unfold FirebaseConfig.make
  rw [if_pos h]

/-- C5: with FIREBASE_PROJECT_ID=demo, FIREBASE_PRIVATE_KEY the escaped string
line1 backslash-n line2, FIREBASE_CLIENT_EMAIL=a@b.com and everything else
unset, construction succeeds; the stored private key is "line1", newline,
"line2", and the optional credential fields are all the empty string. -/
theorem c5_success_scenario :
    AQNHEConfig.init env5 = Except.ok cfg5 ∧
    cfg5.firebase.private_key = "line1\nline2" ∧
    cfg5.firebase.private_key_id = "" ∧
    cfg5.firebase.client_id = "" ∧
    cfg5.firebase.database_url = "" := by
  refine ⟨?_, rfl, rfl, rfl, rfl⟩
  rfl

/-- Every variable listed in a missing-variables message (for any subset of
the mandatory variables, in order) occurs verbatim in that message. -/
theorem missing_msg_mentions :
    ∀ M ∈ required_vars.sublists, ∀ v ∈ M, hasSub v.data (missingMsg M).data = true := by
  decide

/-- C1: for every environment missing at least one mandatory variable,
constructing the root configuration fails, and the single error message
contains the name of every missing mandatory variable, not only the first. -/
theorem c1_missing_env_vars_all_enumerated (env : Env)
    (h : ∃ v ∈ required_vars, envMissing env v = true) :
    ∃ msg, AQNHEConfig.init env = Except.error msg ∧
      ∀ v ∈ required_vars, envMissing env v = true → hasSub v.data msg.data = true := by
  obtain ⟨v₀, hv₀, hm₀⟩ := h
  have hv₀M : v₀ ∈ required_vars.filter (fun v => envMissing env v) :=
    List.mem_filter.mpr ⟨hv₀, hm₀⟩
  have hne : (required_vars.filter (fun v => envMissing env v)).isEmpty = false := by
    cases hM : required_vars.filter (fun v => envMissing env v) with
    | nil => rw [hM] at hv₀M; cases hv₀M
    | cons a t => rfl
  have hval : AQNHEConfig.validate_environment env =
      Except.error (missingMsg (required_vars.filter (fun v => envMissing env v))) := by
    unfold AQNHEConfig.validate_environment
    simp [hne]
  refine ⟨missingMsg (required_vars.filter (fun v => envMissing env v)), ?_, ?_⟩
  · unfold AQNHEConfig.init
    rw [hval]
  · intro v hv hm
    have hvM : v ∈ required_vars.filter (fun v => envMissing env v) :=
      List.mem_filter.mpr ⟨hv, hm⟩
    exact missing_msg_mentions _
      (List.mem_sublists.mpr (List.filter_sublist _)) v hvM

/-- A variable that is not missing reads back as a non-empty string. -/
theorem getenvD_ne {env : Env} {k : String} (h : envMissing env k = false) :
    getenvD env k ≠ "" := by
  unfold envMissing at h
  unfold getenvD
  cases hk : env k with
  | none => rw [hk] at h; simp at h
  | some v =>
      rw [hk] at h
      rw [beq_eq_false_iff_ne] at h
      simpa using h

/-- C8: for every environment with all mandatory variables present and
non-empty, construction succeeds, and any two constructions from the same
snapshot yield equal configurations in every field. -/
theorem c8_config_construction_deterministic (env : Env)
    (h : ∀ v ∈ required_vars, envMissing env v = false) :
    ∃ cfg, AQNHEConfig.init env = Except.ok cfg ∧
      ∀ c₁ c₂, AQNHEConfig.init env = Except.ok c₁ →
        AQNHEConfig.init env = Except.ok c₂ → c₁ = c₂ := by
  have h1 := h "FIREBASE_PROJECT_ID" (by simp [required_vars])
  have h2 := h "FIREBASE_PRIVATE_KEY" (by simp [required_vars])
  have h3 := h "FIREBASE_CLIENT_EMAIL" (by simp [required_vars])
  have hval : AQNHEConfig.validate_environment env = Except.ok () := by
    unfold AQNHEConfig.validate_environment
    simp [required_vars, List.filter, h1, h2, h3]
  have hp := getenvD_ne h1
  have hk := getenvD_ne h2
  have he := getenvD_ne h3
  have hmk : FirebaseConfig.make (getenvD env "FIREBASE_PROJECT_ID")
      (getenvD env "FIREBASE_PRIVATE_KEY_ID") (getenvD env "FIREBASE_PRIVATE_KEY")
      (getenvD env "FIREBASE_CLIENT_EMAIL") (getenvD env "FIREBASE_CLIENT_ID")
      (getenvD env "FIREBASE_DATABASE_URL") =
      Except.ok { project_id := getenvD env "FIREBASE_PROJECT_ID",
                  private_key_id := getenvD env "FIREBASE_PRIVATE_KEY_ID",
                  private_key := normalizeKey (getenvD env "FIREBASE_PRIVATE_KEY"),
                  client_email := getenvD env "FIREBASE_CLIENT_EMAIL",
                  client_id := getenvD env "FIREBASE_CLIENT_ID",
                  database_url := getenvD env "FIREBASE_DATABASE_URL" } := by
    unfold FirebaseConfig.make
    rw [if_neg]
    rintro (hc | hc | hc)
    · exact hp hc
    · exact hk hc
    · exact he hc
  refine ⟨⟨{ project_id := getenvD env "FIREBASE_PROJECT_ID",
             private_key_id := getenvD env "FIREBASE_PRIVATE_KEY_ID",
             private_key := normalizeKey (getenvD env "FIREBASE_PRIVATE_KEY"),
             client_email := getenvD env "FIREBASE_CLIENT_EMAIL",
             client_id := getenvD env "FIREBASE_CLIENT_ID",
             database_url := getenvD env "FIREBASE_DATABASE_URL" },
           TradingConfig.default, QuantumNeuroConfig.default, LoggingConfig.default,
           1, -(1/5), 11/20⟩, ?_, ?_⟩
  · unfold AQNHEConfig.init
    rw [hval, hmk]
  · intro c₁ c₂ e₁ e₂
    rw [e₁] at e₂
    exact Except.ok.inj e₂

/-- Witness for C1 at the empty environment. -/
theorem c1_missing_env_vars_all_enumerated_witness :
    ∃ msg, AQNHEConfig.init (fun _ => none) = Except.error msg ∧
      ∀ v ∈ required_vars, envMissing (fun _ => none) v = true →
        hasSub v.data msg.data = true :=
  c1_missing_env_vars_all_enumerated (fun _ => none) ⟨"FIREBASE_PROJECT_ID", by decide, rfl⟩

/-- Witness for C2 at the process-start state with a succeeding oracle. -/
theorem c2_singleton_returns_identical_instance_witness :
    FBWorld.inst ⟨1, some 0, true⟩ = some 0 ∧
    FBWorld.initDone ⟨1, some 0, true⟩ = true ∧
    ∀ oracle₂, FirebaseClient.construct ⟨1, some 0, true⟩ oracle₂ =
      (Except.ok 0, ⟨1, some 0, true⟩) :=
  c2_singleton_returns_identical_instance FirebaseClient.startWorld none 0 ⟨1, some 0, true⟩ rfl

/-- Witness for C3 at the success-scenario environment. -/
theorem c3_private_key_escapes_normalized_witness :
    EscRel (getenvD env5 "FIREBASE_PRIVATE_KEY").data cfg5.firebase.private_key.data :=
  c3_private_key_escapes_normalized env5 cfg5 rfl

/-- Witness for the amended C4 with an empty project identifier. -/
theorem c4_fixed_error_on_empty_mandatory_field_witness :
    FirebaseConfig.make "" "id2" "KEY2" "x@y.z" "cid2" "url2" =
      Except.error "Missing required Firebase credentials" :=
  c4_fixed_error_on_empty_mandatory_field "" "id2" "KEY2" "x@y.z" "cid2" "url2" (Or.inl rfl)

/-- Witness for C6 at the process-start state. -/
theorem c6_init_failure_logged_and_reraised_witness :
    FirebaseClient.construct FirebaseClient.startWorld (some "boom") =
      (Except.error "boom", (FirebaseClient.new FirebaseClient.startWorld).2) ∧
    ((FirebaseClient.new FirebaseClient.startWorld).2).initDone = false :=
  c6_init_failure_logged_and_reraised FirebaseClient.startWorld "boom" rfl

/-- Witness for C8 at the success-scenario environment. -/
theorem c8_config_construction_deterministic_witness :
    ∃ cfg, AQNHEConfig.init env5 = Except.ok cfg ∧
      ∀ c₁ c₂, AQNHEConfig.init env5 = Except.ok c₁ →
        AQNHEConfig.init env5 = Except.ok c₂ → c₁ = c₂ :=
  c8_config_construction_deterministic env5 (by decide)

/-- Witness for C9 at the dataclass defaults and the list with entries 3, 2. -/
theorem c9_neuro_layers_default_witness :
    (QuantumNeuroConfig.make 50 100 (1/10) (4/5) 10 none).neuro_layers = [64, 32, 16, 8] ∧
    (QuantumNeuroConfig.make 50 100 (1/10) (4/5) 10 (some [3, 2])).neuro_layers = [3, 2] :=
  ⟨c9_neuro_layers_default.1 50 100 (1/10) (4/5) 10, c9_neuro_layers_default.2 50 100 (1/10) (4/5) 10 [3, 2] (by decide)⟩

/-- Witness for C10 at the process-start state. -/
theorem c10_failed_init_caches_instance_only_witness :
    ∃ w₁, FirebaseClient.construct FirebaseClient.startWorld (some "down") =
        (Except.error "down", w₁) ∧
      w₁.inst = some FirebaseClient.startWorld.counter ∧ w₁.initDone = false ∧
      (∀ e₂, FirebaseClient.construct w₁ (some e₂) = (Except.error e₂, w₁)) ∧
      (FirebaseClient.construct w₁ none).1 = .ok FirebaseClient.startWorld.counter ∧
      ((FirebaseClient.construct w₁ none).2).initDone = true :=
  c10_failed_init_caches_instance_only FirebaseClient.startWorld "down" rfl rfl
